import Mathlib

/-!
Shallow embedding of the Stroeer Core bid adapter
(`modules/stroeerCoreBidAdapter.js`).

JavaScript exceptions are modelled with `Option`: a function that can
throw returns `none` on the throwing executions.  JavaScript `undefined`
for an optional field is modelled with `Option` as well (`none` = the
field is absent / `undefined`).  Machine numbers in this adapter are
plain integers (timestamps, sizes, pixel coordinates), so `Int` is used.
-/

namespace StroeerCore

/-- Minimal JavaScript value universe for the fields whose dynamic type
matters (`params.sid`, response-bid fields, price-optimisation values). -/
inductive JSVal where
  | undef
  | num (n : Int)
  | str (s : String)
  | bool (b : Bool)
deriving DecidableEq, Repr

/-- `utils.isStr` : `typeof value === 'string'`. -/
def isStr : JSVal → Bool
  | .str _ => true
  | _ => false

/-- The `params` field of a bid request.  JavaScript-wise it can be any
value; the constructors separate the cases the adapter's `typeof`
check and property accesses distinguish:  `undefined`, `null`, a
non-object primitive (string / number / boolean: `typeof` is not
`'object'`, property access yields `undefined`), or an actual object. -/
inductive Params where
  | undef
  | null
  | nonObj
  | obj (sid : JSVal) (ssat : Option Int) (yl2 : Option Bool)
        (host : Option String) (port : Option String)
        (securePort : Option String) (path : Option String)
deriving DecidableEq, Repr

/-- `typeof params === 'object'` — true for `null` and for objects. -/
def typeofIsObject : Params → Bool
  | .null => true
  | .obj _ _ _ _ _ _ _ => true
  | _ => false

/-- Reading `params.sid`.  `none` = a TypeError is thrown (reading a
property of `null`/`undefined`); reading from a non-object primitive
yields `undefined`. -/
def getSid : Params → Option JSVal
  | .undef => none
  | .null => none
  | .nonObj => some .undef
  | .obj sid _ _ _ _ _ _ => some sid

/-- Reading `params.ssat` (inner `none` = the field is `undefined`). -/
def getSsat : Params → Option (Option Int)
  | .undef => none
  | .null => none
  | .nonObj => some none
  | .obj _ ssat _ _ _ _ _ => some ssat

/-- Reading `params.yl2` (inner `none` = the field is `undefined`). -/
def getYl2 : Params → Option (Option Bool)
  | .undef => none
  | .null => none
  | .nonObj => some none
  | .obj _ _ yl2 _ _ _ _ => some yl2

/-- `mediaTypes.banner` sub-object: carries the structured sizes list. -/
structure BannerMT where
  sizes : Option (List (Int × Int))
deriving DecidableEq, Repr

/-- The `mediaTypes` object of a bid request. -/
structure MediaTypes where
  banner : Option BannerMT
deriving DecidableEq, Repr

/-- A single inbound bid request (the fields the adapter reads). -/
structure BidRequest where
  bidId : String
  adUnitCode : String
  mediaTypes : Option MediaTypes
  mediaType : Option String
  params : Params
  /-- legacy flat `sizes` field (prebid < 3) -/
  sizes : Option (List (Int × Int))
  userId : Option (List (String × String))
deriving DecidableEq, Repr

def BANNER : String := "banner"

/-- `isBanner` from `isBidRequestValid`:
`(!mediaTypes && !mediaType) || (mediaTypes && mediaTypes.banner) || mediaType === BANNER`. -/
def isBanner (b : BidRequest) : Bool :=
  (b.mediaTypes.isNone && b.mediaType.isNone) ||
  (match b.mediaTypes with
   | some mt => mt.banner.isSome
   | none => false) ||
  (b.mediaType == some BANNER)

/-- `spec.isBidRequestValid`: the four validators run in order and
`Array.every` short-circuits on the first `false`.  Result `none`
models a thrown exception (reading `.sid` of a `null` params passes the
`typeof === 'object'` check and then throws a TypeError). -/
def isBidRequestValid (b : BidRequest) : Option Bool :=
  if !(isBanner b) then some false
  else if !(typeofIsObject b.params) then some false
  else
    match getSid b.params with
    | none => none
    | some sidVal =>
      if !(isStr sidVal) then some false
      else
        match getSsat b.params with
        | none => none
        | some ssatVal =>
          some (ssatVal == none || ssatVal == some 1 || ssatVal == some 2)

/-! ## Environment probe: frame-visibility detection -/

/-- A bounding client rectangle (the two fields the adapter reads). -/
structure Rect where
  top : Int
  height : Int
deriving DecidableEq, Repr

/-- Overlap of a rect with the vertical viewport of height `h`:
`(rect.top + rect.height >= 0) && (rect.top <= win.innerHeight)`. -/
def rectInView (r : Rect) (h : Int) : Bool :=
  (r.top + r.height ≥ 0) && (r.top ≤ h)

/-- A chain of browsing contexts, seen from the context that owns the
probed element up to the top-level context.  `frameElement` is the
bounding rect of the frame element hosting this context inside its
parent; `none` models any failing access on that step (cross-origin
`frameElement` access or `getBoundingClientRect` throwing, a `null`
frame element, an old runtime). -/
inductive Win where
  | top (innerHeight : Int)
  | frame (innerHeight : Int) (frameElement : Option Rect) (parent : Win)
deriving DecidableEq, Repr

def Win.innerHeight : Win → Int
  | .top h => h
  | .frame h _ _ => h

/-- `visibleInWindow(el, win)`: local overlap check, and when the
context is embedded (`win !== win.parent`), recurse on the frame
element in the parent context.  The `&&` short-circuit means the frame
element is only accessed when the local check succeeded. -/
def visibleInWindow : Rect → Win → Option Bool
  | r, .top h => some (rectInView r h)
  | r, .frame h fe parent =>
    if rectInView r h then
      match fe with
      | none => none
      | some fr => visibleInWindow fr parent
    else
      some false

/-- `elementInView(elementId)` with the element already looked up:
`el = none` models `getElementById` returning `null` (the subsequent
`getBoundingClientRect` call throws) or any other resolution failure.
The surrounding `try/catch` turns every throw into `undefined`,
i.e. `none`. -/
def elementInView (el : Option Rect) (w : Win) : Option Bool :=
  match el with
  | none => none
  | some r => visibleInWindow r w

/-- Spec-side restatement (for claim C7): the element's rect overlaps
its context's viewport and every ancestor frame element up to the top
overlaps its own parent context's viewport. -/
def chainInView : Rect → Win → Bool
  | r, .top h => rectInView r h
  | r, .frame h fe parent =>
    rectInView r h &&
      (match fe with
       | some fr => chainInView fr parent
       | none => false)

/-- Spec-side restatement (for claim C7): the evaluation hits a failing
access: an in-view local check followed by a failing frame-element
access somewhere up the chain. -/
def failsAlong : Rect → Win → Bool
  | _, .top _ => false
  | r, .frame h fe parent =>
    rectInView r h &&
      (match fe with
       | none => true
       | some fr => failsAlong fr parent)

/-- Spec-side restatement (for claim C7): the element cannot be resolved,
or an access performed along the context chain throws. -/
def resolveFails (el : Option Rect) (w : Win) : Bool :=
  match el with
  | none => true
  | some r => failsAlong r w

/-! ## Request builder -/

def DEFAULT_HOST : String := "hb.adscale.de"
def DEFAULT_PATH : String := "/dsh"
def DEFAULT_PORT : String := ""

/-- Reading the endpoint-override fields by destructuring `params`.
Destructuring `null`/`undefined` throws (`none`); destructuring a
non-object primitive yields `undefined` for every field. -/
def endpointFields :
    Params → Option (Option String × Option String × Option String × Option String)
  | .undef => none
  | .null => none
  | .nonObj => some (none, none, none, none)
  | .obj _ _ _ host port securePort path => some (host, port, securePort, path)

/-- The URL string `utils.buildUrl` produces for a fixed `https`
protocol: an empty port means no explicit port segment. -/
def urlRest (hostname port pathname : String) : String :=
  hostname ++ ((if port = "" then "" else ":" ++ port) ++ pathname)

def urlString (hostname port pathname : String) : String :=
  "https://" ++ urlRest hostname port pathname

/-- `buildUrl(params)` (source lines 68–74): defaults for missing
`host`/`port`/`path`, truthy `securePort` overrides `port`, protocol is
hard-coded to `https`. -/
def buildUrl (params : Params) : Option String :=
  (endpointFields params).map fun (host, port, securePort, path) =>
    let hostname := host.getD DEFAULT_HOST
    let port0 := port.getD DEFAULT_PORT
    let port1 :=
      match securePort with
      | some sp => if sp = "" then port0 else sp
      | none => port0
    let pathname := path.getD DEFAULT_PATH
    urlString hostname port1 pathname

/-- The batch consent object (`bidderRequest.gdprConsent`); `none` in a
field models `null` or `undefined` (the source tests with `!= null`). -/
structure GdprConsent where
  consentString : Option String
  gdprApplies : Option Bool
deriving DecidableEq, Repr

/-- The batch context (`bidderRequest`). -/
structure BidderRequest where
  auctionId : String
  bids : List BidRequest
  timeout : Int
  auctionStart : Int
  gdprConsent : Option GdprConsent
deriving DecidableEq, Repr

/-- Ambient environment of one `buildRequests` call: the probed window
chain, element lookup, referrer and protocol reads, the persisted
`localStorage.sdgYieldtest` flag, the global `yieldlove_ab` object and
the current time (`Date.now()`).  `mostAccessible` is the result of the
`getMostAccessibleTopWindow` walk (source lines 29–40), supplied as a
probe outcome since no claim depends on its internals. -/
structure Env where
  selfWin : Win
  elements : String → Option Rect
  /-- `utils.getWindowTop().document.referrer`; `none` = the access throws. -/
  topReferrer : Option String
  selfReferrer : String
  protocol : String
  mostAccessibleIsTop : Bool
  sdgYieldtest : Option String
  yieldloveAb : Option String
  now : Int

/-- `isSecureWindow` (source line 18). -/
def isSecureWindow (env : Env) : Bool :=
  env.protocol == "https:"

/-- `getTopWindowReferrer` (source lines 21–27): try the top context's
referrer, fall back to the current context's own referrer on a throw. -/
def getTopWindowReferrer (env : Env) : String :=
  match env.topReferrer with
  | some r => r
  | none => env.selfReferrer

/-- `isMainPageAccessible` (source line 19). -/
def isMainPageAccessible (env : Env) : Bool :=
  env.mostAccessibleIsTop

/-- The `find` polyfill (source lines 215–249) specialised to bid-request
lists: first element whose predicate result is truthy; a predicate
throw (`none`) propagates.  Outer `none` = throw, `some none` = no
match, `some (some b)` = the first match. -/
def findFirst (p : BidRequest → Option Bool) :
    List BidRequest → Option (Option BidRequest)
  | [] => some none
  | b :: rest =>
    match p b with
    | none => none
    | some true => some (some b)
    | some false => findFirst p rest

/-- Truthiness of a number-valued field (`0` is falsy). -/
def ssatTruthy : Option Int → Bool
  | some v => v != 0
  | none => false

/-- Truthiness of a boolean-valued field. -/
def yl2Truthy : Option Bool → Bool
  | some v => v
  | none => false

/-- Lines 117 and 127: `find(validBidRequests, b => b.params.ssat)` and
the payload ternary `bidRequestWithSsat ? bidRequestWithSsat.params.ssat : 2`. -/
def resolveSsat (v : List BidRequest) : Option (Option Int) :=
  (findFirst (fun b => (getSsat b.params).map ssatTruthy) v).bind fun found =>
    match found with
    | some b => getSsat b.params
    | none => some (some 2)

/-- Lines 118 and 128: `find(validBidRequests, b => b.params.yl2)` and
the ternary `bidRequestWithYl2 ? bidRequestWithYl2.params.yl2
: (localStorage.sdgYieldtest === '1')`. -/
def resolveYl2 (env : Env) (v : List BidRequest) : Option (Option Bool) :=
  (findFirst (fun b => (getYl2 b.params).map yl2Truthy) v).bind fun found =>
    match found with
    | some b => getYl2 b.params
    | none => some (some (env.sdgYieldtest == some "1"))

/-- Lines 140–146: the `gdpr` payload field. -/
structure GdprOut where
  consent : String
  applies : Bool
deriving DecidableEq, Repr

def resolveGdpr : Option GdprConsent → Option GdprOut
  | some g =>
    match g.consentString, g.gdprApplies with
    | some c, some a => some { consent := c, applies := a }
    | _, _ => none
  | none => none

/-- Lines 148–150: `deepAccess(bid, 'mediaTypes.banner.sizes') || bid.sizes || []`.
An array is always truthy, so a present empty structured list wins. -/
def bidSizes (b : BidRequest) : List (Int × Int) :=
  match (b.mediaTypes.bind MediaTypes.banner).bind BannerMT.sizes with
  | some l => l
  | none => b.sizes.getD []

/-- One entry of `payload.bids` (lines 152–156).  Reading `bid.params.sid`
can throw when `params` is `null`/`undefined`. -/
structure PayloadBid where
  bid : String
  sid : JSVal
  siz : List (Int × Int)
  viz : Option Bool
deriving DecidableEq, Repr

def mkPayloadBid (env : Env) (b : BidRequest) : Option PayloadBid :=
  (getSid b.params).map fun sidVal =>
    { bid := b.bidId
      sid := sidVal
      siz := bidSizes b
      viz := elementInView (env.elements b.adUnitCode) env.selfWin }

/-- The outbound payload (`data` of the built request). -/
structure Payload where
  id : String
  bids : List PayloadBid
  ref : String
  ssl : Bool
  mpa : Bool
  timeout : Int
  ssat : Option Int
  yl2 : Option Bool
  ab : Option String
  user : Option (List (String × String))
  gdpr : Option GdprOut
deriving DecidableEq, Repr

structure StroeerRequest where
  method : String
  url : String
  data : Payload
deriving DecidableEq, Repr

/-- The record literal returned on line 158–160 together with the payload
literal of lines 120–146, once every fallible read has succeeded. -/
def assemble (br : BidderRequest) (env : Env) (ssatVal : Option Int)
    (yl2Val : Option Bool) (anyBid : BidRequest) (pbids : List PayloadBid)
    (url : String) : StroeerRequest :=
  { method := "POST"
    url := url
    data :=
      { id := br.auctionId
        bids := pbids
        ref := getTopWindowReferrer env
        ssl := isSecureWindow env
        mpa := isMainPageAccessible env
        timeout := br.timeout - (env.now - br.auctionStart)
        ssat := ssatVal
        yl2 := yl2Val
        ab := env.yieldloveAb
        user :=
          match anyBid.userId with
          | some ids => if ids.isEmpty then none else some ids
          | none => none
        gdpr := resolveGdpr br.gdprConsent } }

/-- `spec.buildRequests` (source lines 114–161).  `none` models a thrown
exception: a `find` predicate dereferencing a `null` params, the
`anyBid.userId` read on line 132 when the original bid list is empty,
a `bid.params.sid` read in the per-bid loop, or the destructuring
inside `buildUrl(anyBid.params)`. -/
def buildRequests (v : List BidRequest) (br : BidderRequest) (env : Env) :
    Option StroeerRequest :=
  (resolveSsat v).bind fun ssatVal =>
  (resolveYl2 env v).bind fun yl2Val =>
  br.bids.head?.bind fun anyBid =>
  (v.mapM (mkPayloadBid env)).bind fun pbids =>
  (buildUrl anyBid.params).map fun url =>
  assemble br env ssatVal yl2Val anyBid pbids url

/-! ## Response interpreter -/

/-- One entry of `serverResponse.body.bids`.  `cpm`, `width`, `height`
are optional numbers (`none` = absent/undefined); `ad` is copied
verbatim; `bidPriceOptimisation` is an optional object, modelled as an
association list in key-insertion order. -/
structure RespBid where
  bidId : String
  cpm : Option Int
  width : Option Int
  height : Option Int
  ad : JSVal
  bidPriceOptimisation : Option (List (String × JSVal))
deriving DecidableEq, Repr

/-- `x || 0` on an optional number (`0` and absent are both falsy). -/
def jsOrZero : Option Int → Int
  | some v => if v != 0 then v else 0
  | none => 0

/-- Property read on a JavaScript object modelled as an association
list (first occurrence wins, as keys are unique on real objects). -/
def objGet : List (String × JSVal) → String → Option JSVal
  | [], _ => none
  | (k0, v0) :: rest, k => if k0 = k then some v0 else objGet rest k

/-- Property write: replace in place, or append a new key. -/
def objSet : List (String × JSVal) → String → JSVal → List (String × JSVal)
  | [], k, v => [(k, v)]
  | (k0, v0) :: rest, k, v =>
    if k0 = k then (k0, v) :: rest else (k0, v0) :: objSet rest k v

/-- `Object.assign(bid, extra)`: assign every own key of `extra` onto
`bid` in insertion order. -/
def objAssign (base extra : List (String × JSVal)) : List (String × JSVal) :=
  extra.foldl (fun o kv => objSet o kv.1 kv.2) base

/-- The object literal of source lines 176–187 (the standard Prebid
fields of one normalized bid). -/
def mkStandardBid (b : RespBid) : List (String × JSVal) :=
  [("requestId", .str b.bidId),
   ("cpm", .num (jsOrZero b.cpm)),
   ("width", .num (jsOrZero b.width)),
   ("height", .num (jsOrZero b.height)),
   ("ad", b.ad),
   ("ttl", .num 300),
   ("currency", .str "EUR"),
   ("netRevenue", .bool true),
   ("creativeId", .str "")]

/-- Lines 189–193: merge the price-optimisation object onto the bid
when present. -/
def normalizeBid (b : RespBid) : List (String × JSVal) :=
  match b.bidPriceOptimisation with
  | some extra => objAssign (mkStandardBid b) extra
  | none => mkStandardBid b

/-- The `body` of a server response.  `missing` = `undefined`/`null`
(falsy, and `null` is skipped by the truthiness check before its
`typeof` would matter); `prim v` = any non-object primitive (skipped by
`typeof body === 'object'`, whatever its truthiness); `obj` = a parsed
JSON object with optional `tep` and `bids` fields. -/
inductive Body where
  | missing
  | prim (v : JSVal)
  | obj (tep : Option String) (bids : Option (List RespBid))
deriving DecidableEq, Repr

/-- `spec.interpretResponse` (source lines 163–198).  The fire-and-forget
`ajax(body.tep, ...)` call has no effect on the returned value and is
not part of the modelled result.  `none` models the throw of
`body.bids.forEach` when `bids` is absent (legacy redirect-only shape). -/
def interpretResponse (body : Body) : Option (List (List (String × JSVal))) :=
  match body with
  | .obj _ bids =>
    match bids with
    | none => none
    | some l => some (l.map normalizeBid)
  | _ => some []

/-! ## Spec-side resolution functions for the precedence claims -/

/-- The `ssat` value of the first request (in order) that explicitly
sets one. -/
def firstExplicitSsat : List BidRequest → Option Int
  | [] => none
  | b :: rest =>
    match b.params with
    | .obj _ ssat _ _ _ _ _ =>
      match ssat with
      | some s => some s
      | none => firstExplicitSsat rest
    | _ => firstExplicitSsat rest

/-- Whether a request carries a truthy explicit `yl2`. -/
def hasTruthyYl2 (b : BidRequest) : Bool :=
  match b.params with
  | .obj _ _ yl2 _ _ _ _ => yl2 == some true
  | _ => false

/-! ## Helper lemmas -/

theorem valid_params_shape {b : BidRequest} (h : isBidRequestValid b = some true) :
    ∃ sid ssat yl2 host port sp path,
      b.params = Params.obj sid ssat yl2 host port sp path ∧
      (ssat = none ∨ ssat = some 1 ∨ ssat = some 2) := by
  unfold isBidRequestValid at h
  cases hban : isBanner b with
  | false => rw [hban] at h; simp at h
  | true =>
    rw [hban] at h
    cases hp : b.params with
    | undef => rw [hp] at h; simp [typeofIsObject] at h
    | null => rw [hp] at h; simp [typeofIsObject, getSid] at h
    | nonObj => rw [hp] at h; simp [typeofIsObject, getSid, isStr] at h
    | obj sid ssat yl2 host port sp path =>
      rw [hp] at h
      refine ⟨sid, ssat, yl2, host, port, sp, path, rfl, ?_⟩
      cases hs : isStr sid with
      | false => simp [typeofIsObject, getSid, hs] at h
      | true =>
        simp [typeofIsObject, getSid, getSsat, hs] at h
        tauto

theorem buildRequests_parts {v : List BidRequest} {br : BidderRequest}
    {env : Env} {r : StroeerRequest} (h : buildRequests v br env = some r) :
    ∃ ssatVal yl2Val anyBid pbids url,
      resolveSsat v = some ssatVal ∧
      resolveYl2 env v = some yl2Val ∧
      br.bids.head? = some anyBid ∧
      v.mapM (mkPayloadBid env) = some pbids ∧
      buildUrl anyBid.params = some url ∧
      r = assemble br env ssatVal yl2Val anyBid pbids url := by
  unfold buildRequests at h
  rw [Option.bind_eq_some] at h
  obtain ⟨ssatVal, h1, h⟩ := h
  rw [Option.bind_eq_some] at h
  obtain ⟨yl2Val, h2, h⟩ := h
  rw [Option.bind_eq_some] at h
  obtain ⟨anyBid, h3, h⟩ := h
  rw [Option.bind_eq_some] at h
  obtain ⟨pbids, h4, h⟩ := h
  rw [Option.map_eq_some'] at h
  obtain ⟨url, h5, h6⟩ := h
  exact ⟨ssatVal, yl2Val, anyBid, pbids, url, h1, h2, h3, h4, h5, h6.symm⟩

theorem resolveSsat_of_valid {v : List BidRequest}
    (hv : ∀ b ∈ v, isBidRequestValid b = some true) :
    resolveSsat v = some (some ((firstExplicitSsat v).getD 2)) := by
  induction v with
  | nil => rfl
  | cons b rest ih =>
    obtain ⟨sid, ssat, yl2, host, port, sp, path, hp, hdom⟩ :=
      valid_params_shape (hv b (List.mem_cons_self b rest))
    have hrest := ih (fun x hx => hv x (List.mem_cons_of_mem b hx))
    cases ssat with
    | none =>
      have hstep :
          findFirst (fun b2 => (getSsat b2.params).map ssatTruthy) (b :: rest) =
          findFirst (fun b2 => (getSsat b2.params).map ssatTruthy) rest := by
        simp [findFirst, hp, getSsat, ssatTruthy]
      have hfirst : firstExplicitSsat (b :: rest) = firstExplicitSsat rest := by
        simp [firstExplicitSsat, hp]
      rw [show resolveSsat (b :: rest) =
            (findFirst (fun b2 => (getSsat b2.params).map ssatTruthy)
              (b :: rest)).bind (fun found =>
                match found with
                | some b2 => getSsat b2.params
                | none => some (some 2)) from rfl,
          hstep, hfirst]
      exact hrest
    | some s =>
      have hne : (s != 0) = true := by
        rcases hdom with hd | hd | hd
        · exact absurd hd (by simp)
        · rw [Option.some.inj hd]; decide
        · rw [Option.some.inj hd]; decide
      simp [resolveSsat, findFirst, hp, getSsat, ssatTruthy, hne,
        firstExplicitSsat]

theorem resolveYl2_of_valid {env : Env} {v : List BidRequest}
    (hv : ∀ b ∈ v, isBidRequestValid b = some true) :
    resolveYl2 env v =
      some (some (v.any hasTruthyYl2 || env.sdgYieldtest == some "1")) := by
  induction v with
  | nil => rfl
  | cons b rest ih =>
    obtain ⟨sid, ssat, yl2, host, port, sp, path, hp, -⟩ :=
      valid_params_shape (hv b (List.mem_cons_self b rest))
    have hrest := ih (fun x hx => hv x (List.mem_cons_of_mem b hx))
    cases yl2 with
    | none =>
      have hstep :
          findFirst (fun b2 => (getYl2 b2.params).map yl2Truthy) (b :: rest) =
          findFirst (fun b2 => (getYl2 b2.params).map yl2Truthy) rest := by
        simp [findFirst, hp, getYl2, yl2Truthy]
      have hany : hasTruthyYl2 b = false := by simp [hasTruthyYl2, hp]
      rw [show resolveYl2 env (b :: rest) =
            (findFirst (fun b2 => (getYl2 b2.params).map yl2Truthy)
              (b :: rest)).bind (fun found =>
                match found with
                | some b2 => getYl2 b2.params
                | none => some (some (env.sdgYieldtest == some "1"))) from rfl,
          hstep]
      exact hrest.trans (by simp [hany])
    | some bv =>
      cases bv with
      | true =>
        simp [resolveYl2, findFirst, hp, getYl2, yl2Truthy, hasTruthyYl2]
      | false =>
        have hstep :
            findFirst (fun b2 => (getYl2 b2.params).map yl2Truthy) (b :: rest) =
            findFirst (fun b2 => (getYl2 b2.params).map yl2Truthy) rest := by
          simp [findFirst, hp, getYl2, yl2Truthy]
        have hany : hasTruthyYl2 b = false := by simp [hasTruthyYl2, hp]
        rw [show resolveYl2 env (b :: rest) =
              (findFirst (fun b2 => (getYl2 b2.params).map yl2Truthy)
                (b :: rest)).bind (fun found =>
                  match found with
                  | some b2 => getYl2 b2.params
                  | none => some (some (env.sdgYieldtest == some "1"))) from rfl,
            hstep]
        exact hrest.trans (by simp [hany])

theorem objGet_objSet_self (o : List (String × JSVal)) (k : String) (v : JSVal) :
    objGet (objSet o k v) k = some v := by
  induction o with
  | nil => simp [objSet, objGet]
  | cons kv rest ih =>
    obtain ⟨k0, v0⟩ := kv
    by_cases hk : k0 = k
    · simp [objSet, objGet, hk]
    · simp [objSet, objGet, hk, ih]

theorem objGet_objSet_ne (o : List (String × JSVal)) (k k2 : String) (v : JSVal)
    (h : k2 ≠ k) : objGet (objSet o k v) k2 = objGet o k2 := by
  induction o with
  | nil => simp [objSet, objGet, Ne.symm h]
  | cons kv rest ih =>
    obtain ⟨k0, v0⟩ := kv
    by_cases hk : k0 = k
    · subst hk
      simp [objSet, objGet, Ne.symm h]
    · by_cases hk2 : k0 = k2
      · subst hk2
        simp [objSet, objGet, hk]
      · simp [objSet, objGet, hk, hk2, ih]

theorem objGet_eq_none_of_not_mem (o : List (String × JSVal)) (k : String)
    (h : k ∉ o.map Prod.fst) : objGet o k = none := by
  induction o with
  | nil => rfl
  | cons kv rest ih =>
    rw [List.map_cons, List.mem_cons] at h
    push_neg at h
    obtain ⟨h1, h2⟩ := h
    simp [objGet, Ne.symm h1, ih h2]

theorem objGet_objAssign (extra : List (String × JSVal)) :
    (extra.map Prod.fst).Nodup →
    ∀ (base : List (String × JSVal)) (k : String),
    objGet (objAssign base extra) k =
      (objGet extra k).or (objGet base k) := by
  induction extra with
  | nil => intro _ base k; simp [objAssign, objGet]
  | cons kv rest ih =>
    intro hnd base k
    obtain ⟨k0, v0⟩ := kv
    rw [List.map_cons, List.nodup_cons] at hnd
    obtain ⟨hnotin, hnd2⟩ := hnd
    have hA : objAssign base ((k0, v0) :: rest) = objAssign (objSet base k0 v0) rest := rfl
    rw [hA, ih hnd2]
    by_cases hk : k0 = k
    · subst hk
      rw [objGet_eq_none_of_not_mem rest k0 hnotin]
      simp [objGet, objGet_objSet_self]
    · rw [objGet_objSet_ne base k0 k v0 (fun he => hk he.symm)]
      simp [objGet, hk]

/-! ## Concrete inputs used by the witnesses and counterexamples -/

/-- A representative validated banner bid request with default endpoint
parameters and neither `ssat` nor `yl2` set. -/
def wBid : BidRequest :=
  { bidId := "bid1"
    adUnitCode := "div-1"
    mediaTypes := some { banner := some { sizes := some [(300, 600)] } }
    mediaType := none
    params := .obj (.str "ODA=") none none none none none none
    sizes := none
    userId := none }

/-- A batch with timeout 5000ms started at 10000, with a consent string
and an explicit `gdprApplies = false`. -/
def wBr : BidderRequest :=
  { auctionId := "auction-1"
    bids := [wBid]
    timeout := 5000
    auctionStart := 10000
    gdprConsent := some { consentString := some "consent-str", gdprApplies := some false } }

/-- A top-level secure context observed at time 13500 with the probed
element in view and no persisted test flag. -/
def wEnv : Env :=
  { selfWin := .top 600
    elements := fun _ => some { top := 10, height := 50 }
    topReferrer := some "https://example.com/page"
    selfReferrer := ""
    protocol := "https:"
    mostAccessibleIsTop := true
    sdgYieldtest := none
    yieldloveAb := none
    now := 13500 }

def wOpt : Option StroeerRequest := buildRequests [wBid] wBr wEnv

theorem wOpt_isSome : wOpt.isSome = true := by decide

def wReq : StroeerRequest := wOpt.get wOpt_isSome

theorem wOpt_eq : wOpt = some wReq := (Option.some_get wOpt_isSome).symm

/-- A second validated request that explicitly sets `ssat = 1`. -/
def wBidSsat1 : BidRequest :=
  { wBid with
    bidId := "bid2"
    params := .obj (.str "NDA=") (some 1) none none none none none }

def w2V : List BidRequest := [wBid, wBidSsat1]

def w2Br : BidderRequest := { wBr with bids := w2V }

def w2Opt : Option StroeerRequest := buildRequests w2V w2Br wEnv

theorem w2Opt_isSome : w2Opt.isSome = true := by decide

def w2Req : StroeerRequest := w2Opt.get w2Opt_isSome

theorem w2Opt_eq : w2Opt = some w2Req := (Option.some_get w2Opt_isSome).symm

/-- A validated request that explicitly sets `yl2 = false`. -/
def cBid : BidRequest :=
  { wBid with params := .obj (.str "ODA=") none (some false) none none none none }

def cBr : BidderRequest := { wBr with bids := [cBid] }

/-- Same environment, but with the persisted flag set to the truthy "1". -/
def cEnv : Env := { wEnv with sdgYieldtest := some "1" }

/-- A batch whose original bid list is empty. -/
def wEmptyBr : BidderRequest := { wBr with bids := [] }

/-- `wBid` with `params` replaced by `null`. -/
def nullParamsBid : BidRequest := { wBid with params := .null }

/-- `wBid` with `params` left `undefined`. -/
def undefParamsBid : BidRequest := { wBid with params := .undef }

/-- `wBid` with a non-object primitive `params`. -/
def primParamsBid : BidRequest := { wBid with params := .nonObj }

/-- A response bid with `cpm`, `width`, `height` absent and a
price-optimisation object colliding on the `cpm` key. -/
def rb0 : RespBid :=
  { bidId := "bid1"
    cpm := none
    width := none
    height := none
    ad := .str "<div>tag1</div>"
    bidPriceOptimisation := some [("cp", .num 4), ("cpm", .num 9)] }

/-- A plain response bid without price optimisation. -/
def rb1 : RespBid :=
  { bidId := "bid2"
    cpm := some 4
    width := some 300
    height := some 600
    ad := .str "<div>tag2</div>"
    bidPriceOptimisation := none }

/-! ## Claim theorems -/

/-- C1 (counterexample): a validated request with an explicit
`yl2 = false` does NOT yield payload `yl2 = false` when the persisted
flag is "1": the truthy-`find` skips the explicit `false`, so the
storage flag wins and the payload carries `yl2 = true`. -/
theorem yl2_explicit_false_loses_to_flag :
    isBidRequestValid cBid = some true ∧
    getYl2 cBid.params = some (some false) ∧
    cEnv.sdgYieldtest = some "1" ∧
    (buildRequests [cBid] cBr cEnv).map (fun r => r.data.yl2) = some (some true) := by
  decide

/-- C1 (amended): in the payload built by `buildRequests`, `yl2` is true
iff some validated request carries a truthy explicit `yl2` or the
persisted flag equals "1"; a request-level explicit `yl2 = false` is
treated as unset and does not override the persisted flag. -/
theorem yl2_resolution_amended (v : List BidRequest) (br : BidderRequest)
    (env : Env) (r : StroeerRequest)
    (hval : ∀ b ∈ v, isBidRequestValid b = some true)
    (h : buildRequests v br env = some r) :
    r.data.yl2 = some (v.any hasTruthyYl2 || env.sdgYieldtest == some "1") := by
  obtain ⟨sv, yv, ab, pb, u, h1, h2, h3, h4, h5, h6⟩ := buildRequests_parts h
  rw [resolveYl2_of_valid hval] at h2
  subst h6
  exact (Option.some.inj h2).symm

theorem yl2_resolution_amended_witness : wReq.data.yl2 = some false := by
  have h := yl2_resolution_amended [wBid] wBr wEnv wReq (by decide) wOpt_eq
  rw [h]; decide

/-- C2: the claim says `isValid` returns `false` on a `null` (or
otherwise non-object) `params`.  The code instead throws on `null`
params: `typeof null === 'object'` passes the object validator and the
`sid` validator then dereferences `null`.  For `undefined` and
non-object primitive `params` the code does return `false`.  This
theorem evaluates the model at those inputs. -/
theorem isBidRequestValid_null_params_throws :
    isBidRequestValid nullParamsBid = none ∧
    isBidRequestValid undefParamsBid = some false ∧
    isBidRequestValid primParamsBid = some false := by
  decide

/-- C3: the payload `ssat` is the `ssat` of the first validated request
(in original order) that explicitly sets one, and defaults to 2 when no
validated request sets it; a later request never overrides an earlier
explicit value. -/
theorem ssat_first_explicit_wins (v : List BidRequest) (br : BidderRequest)
    (env : Env) (r : StroeerRequest)
    (hval : ∀ b ∈ v, isBidRequestValid b = some true)
    (h : buildRequests v br env = some r) :
    r.data.ssat = some ((firstExplicitSsat v).getD 2) := by
  obtain ⟨sv, yv, ab, pb, u, h1, h2, h3, h4, h5, h6⟩ := buildRequests_parts h
  rw [resolveSsat_of_valid hval] at h1
  subst h6
  exact (Option.some.inj h1).symm

theorem ssat_first_explicit_wins_witness : w2Req.data.ssat = some 1 := by
  have h := ssat_first_explicit_wins w2V w2Br wEnv w2Req (by decide) w2Opt_eq
  rw [h]; decide

/-- C4: the `gdpr` object appears in the outbound payload iff both the
batch's `consentString` and `gdprApplies` are present (neither `null`
nor `undefined`); an explicit `gdprApplies = false` still produces the
object with `applies = false`. -/
theorem gdpr_presence_iff (v : List BidRequest) (br : BidderRequest)
    (env : Env) (r : StroeerRequest) (h : buildRequests v br env = some r) :
    ((r.data.gdpr).isSome ↔
      (br.gdprConsent.bind GdprConsent.consentString).isSome ∧
      (br.gdprConsent.bind GdprConsent.gdprApplies).isSome) ∧
    (∀ g c, br.gdprConsent = some g → g.consentString = some c →
      g.gdprApplies = some false →
      r.data.gdpr = some { consent := c, applies := false }) := by
  obtain ⟨sv, yv, ab, pb, u, h1, h2, h3, h4, h5, h6⟩ := buildRequests_parts h
  subst h6
  have hg : (assemble br env sv yv ab pb u).data.gdpr = resolveGdpr br.gdprConsent := rfl
  constructor
  · rw [hg]
    cases br.gdprConsent with
    | none => simp [resolveGdpr]
    | some g =>
      cases hc : g.consentString <;> cases ha : g.gdprApplies <;>
        simp [resolveGdpr, hc, ha]
  · intro g c hg1 hc ha
    rw [hg, hg1]
    simp [resolveGdpr, hc, ha]

theorem gdpr_presence_iff_witness :
    wReq.data.gdpr = some { consent := "consent-str", applies := false } := by
  exact (gdpr_presence_iff [wBid] wBr wEnv wReq wOpt_eq).2
    { consentString := some "consent-str", gdprApplies := some false }
    "consent-str" rfl rfl rfl

/-- C5: the request URL always carries the secure scheme regardless of
the probed context; host and path default to the fixed vendor values
(also under a plain `port` override); a (truthy) `securePort` override
always wins over a plain `port` override; and the endpoint parameters
are read from the first request of the batch's original bid list,
whatever the validated subset is. -/
theorem url_resolution :
    (∀ (v : List BidRequest) (br : BidderRequest) (env : Env) (r : StroeerRequest),
      buildRequests v br env = some r → ∃ rest, r.url = "https://" ++ rest) ∧
    (∀ sid ssat yl2,
      buildUrl (.obj sid ssat yl2 none none none none) =
        some "https://hb.adscale.de/dsh") ∧
    (∀ sid ssat yl2 prt,
      buildUrl (.obj sid ssat yl2 none (some prt) none none) =
        some (urlString DEFAULT_HOST prt DEFAULT_PATH)) ∧
    (∀ sid ssat yl2 host prt sp path, sp ≠ "" →
      buildUrl (.obj sid ssat yl2 host prt (some sp) path) =
        some (urlString (host.getD DEFAULT_HOST) sp (path.getD DEFAULT_PATH))) ∧
    (∀ (v : List BidRequest) (br : BidderRequest) (env : Env) (r : StroeerRequest)
      (b : BidRequest) (rest : List BidRequest),
      buildRequests v br env = some r → br.bids = b :: rest →
      buildUrl b.params = some r.url) := by
  refine ⟨?_, ?_, ?_, ?_, ?_⟩
  · intro v br env r h
    obtain ⟨sv, yv, ab, pb, u, h1, h2, h3, h4, h5, h6⟩ := buildRequests_parts h
    subst h6
    cases hep : endpointFields ab.params with
    | none => rw [buildUrl, hep] at h5; simp at h5
    | some q =>
      obtain ⟨host, port, securePort, path⟩ := q
      rw [buildUrl, hep] at h5
      simp only [Option.map_some'] at h5
      exact ⟨_, ((Option.some.inj h5).symm : (assemble br env sv yv ab pb u).url = _)⟩
  · intro sid ssat yl2; rfl
  · intro sid ssat yl2 prt; rfl
  · intro sid ssat yl2 host prt sp path hsp
    simp [buildUrl, endpointFields, hsp]
  · intro v br env r b rest h hb
    obtain ⟨sv, yv, ab, pb, u, h1, h2, h3, h4, h5, h6⟩ := buildRequests_parts h
    subst h6
    rw [hb] at h3
    simp only [List.head?_cons, Option.some.injEq] at h3
    rw [← h3] at h5
    exact h5

theorem url_resolution_witness :
    (∃ rest, wReq.url = "https://" ++ rest) ∧
    buildUrl (.obj (.str "ODA=") none none none none none none) =
      some "https://hb.adscale.de/dsh" ∧
    buildUrl (.obj (.str "ODA=") none none none (some "234") none none) =
      some "https://hb.adscale.de:234/dsh" ∧
    buildUrl (.obj (.str "ODA=") none none none (some "234") (some "871") none) =
      some "https://hb.adscale.de:871/dsh" ∧
    buildUrl wBid.params = some wReq.url := by
  refine ⟨url_resolution.1 [wBid] wBr wEnv wReq wOpt_eq,
    url_resolution.2.1 (.str "ODA=") none none,
    (url_resolution.2.2.1 (.str "ODA=") none none "234").trans (by decide),
    (url_resolution.2.2.2.1 (.str "ODA=") none none none (some "234") "871" none
      (by decide)).trans (by decide),
    url_resolution.2.2.2.2 [wBid] wBr wEnv wReq wBid [] wOpt_eq rfl⟩

/-- C6: the payload `timeout` is the batch timeout minus the elapsed
time since auction start, exact integer arithmetic with no clamping. -/
theorem timeout_arithmetic (v : List BidRequest) (br : BidderRequest)
    (env : Env) (r : StroeerRequest) (h : buildRequests v br env = some r) :
    r.data.timeout = br.timeout - (env.now - br.auctionStart) := by
  obtain ⟨sv, yv, ab, pb, u, h1, h2, h3, h4, h5, h6⟩ := buildRequests_parts h
  subst h6
  rfl

theorem timeout_arithmetic_witness : wReq.data.timeout = 1500 := by
  have h := timeout_arithmetic [wBid] wBr wEnv wReq wOpt_eq
  rw [h]; decide

/-- C7: `elementInView` returns `true` exactly when the element's rect
overlaps the vertical viewport of its context and, recursively, every
ancestor frame element up to the top overlaps its own parent context's
viewport; and it returns `undefined` (`none`, distinct from `false`)
exactly when the element cannot be resolved or an access performed
along the context chain throws. -/
theorem elementInView_spec (el : Option Rect) (w : Win) :
    (elementInView el w = some true ↔ ∃ r, el = some r ∧ chainInView r w = true) ∧
    (elementInView el w = none ↔ resolveFails el w = true) := by
  cases el with
  | none => simp [elementInView, resolveFails]
  | some r =>
    have hch : ∀ (w : Win) (r : Rect),
        (visibleInWindow r w = some true ↔ chainInView r w = true) ∧
        (visibleInWindow r w = none ↔ failsAlong r w = true) := by
      intro w
      induction w with
      | top h => intro r; simp [visibleInWindow, chainInView, failsAlong]
      | frame h fe parent ih =>
        intro r
        cases hr : rectInView r h with
        | false => simp [visibleInWindow, chainInView, failsAlong, hr]
        | true =>
          cases fe with
          | none => simp [visibleInWindow, chainInView, failsAlong, hr]
          | some fr =>
            simpa [visibleInWindow, chainInView, failsAlong, hr] using ih fr
    constructor
    · simpa [elementInView] using (hch w r).1
    · simpa [elementInView, resolveFails] using (hch w r).2

/-- C8: a server response whose body is absent (`undefined`/`null`),
empty, or not an object is interpreted as an empty bid list, with no
error raised. -/
theorem interpretResponse_non_object_body :
    interpretResponse Body.missing = some [] ∧
    ∀ v : JSVal, interpretResponse (Body.prim v) = some [] :=
  ⟨rfl, fun _ => rfl⟩

/-- C9: every response bid entry is normalized with `cpm`, `width`,
`height` defaulted to 0 when absent, fixed `ttl = 300`,
`currency = "EUR"`, `netRevenue = true` and empty `creativeId`; a
present `bidPriceOptimisation` object is merged onto the normalized
bid with its keys winning every collision; `interpretResponse` maps
this normalization over the response's bid list. -/
theorem interpretResponse_normalization (b : RespBid) :
    (b.cpm = none → objGet (mkStandardBid b) "cpm" = some (JSVal.num 0)) ∧
    (b.width = none → objGet (mkStandardBid b) "width" = some (JSVal.num 0)) ∧
    (b.height = none → objGet (mkStandardBid b) "height" = some (JSVal.num 0)) ∧
    objGet (mkStandardBid b) "ttl" = some (JSVal.num 300) ∧
    objGet (mkStandardBid b) "currency" = some (JSVal.str "EUR") ∧
    objGet (mkStandardBid b) "netRevenue" = some (JSVal.bool true) ∧
    objGet (mkStandardBid b) "creativeId" = some (JSVal.str "") ∧
    (b.bidPriceOptimisation = none → normalizeBid b = mkStandardBid b) ∧
    (∀ extra, b.bidPriceOptimisation = some extra →
      (extra.map Prod.fst).Nodup →
      ∀ k, objGet (normalizeBid b) k =
        (objGet extra k).or (objGet (mkStandardBid b) k)) ∧
    (∀ tep l, interpretResponse (Body.obj tep (some l)) = some (l.map normalizeBid)) := by
  refine ⟨?_, ?_, ?_, rfl, rfl, rfl, rfl, ?_, ?_, fun tep l => rfl⟩
  · intro h
    have hc : objGet (mkStandardBid b) "cpm" = some (.num (jsOrZero b.cpm)) := rfl
    rw [hc, h]; rfl
  · intro h
    have hc : objGet (mkStandardBid b) "width" = some (.num (jsOrZero b.width)) := rfl
    rw [hc, h]; rfl
  · intro h
    have hc : objGet (mkStandardBid b) "height" = some (.num (jsOrZero b.height)) := rfl
    rw [hc, h]; rfl
  · intro h
    simp [normalizeBid, h]
  · intro extra he hnd k
    simp only [normalizeBid, he]
    exact objGet_objAssign extra hnd (mkStandardBid b) k

theorem interpretResponse_normalization_witness :
    objGet (normalizeBid rb0) "cp" = some (JSVal.num 4) ∧
    objGet (normalizeBid rb0) "cpm" = some (JSVal.num 9) ∧
    objGet (normalizeBid rb0) "width" = some (JSVal.num 0) ∧
    normalizeBid rb1 = mkStandardBid rb1 ∧
    objGet (mkStandardBid rb0) "cpm" = some (JSVal.num 0) := by
  have h0 := interpretResponse_normalization rb0
  have h1 := interpretResponse_normalization rb1
  have hm := h0.2.2.2.2.2.2.2.2.1 [("cp", .num 4), ("cpm", .num 9)] rfl (by decide)
  exact ⟨(hm "cp").trans (by decide), (hm "cpm").trans (by decide),
    (hm "width").trans (by decide), h1.2.2.2.2.2.2.2.1 rfl, h0.1 rfl⟩

/-- C10: `buildRequests` presumes a non-empty original bid list: with
`bidderRequest.bids = []` it always fails with an exception (the
dereference of the undefined first bid) instead of returning a request
object. -/
theorem buildRequests_empty_bids_throws (v : List BidRequest)
    (br : BidderRequest) (env : Env) (h : br.bids = []) :
    buildRequests v br env = none := by
  cases h1 : resolveSsat v <;> cases h2 : resolveYl2 env v <;>
    simp [buildRequests, h, h1, h2]

theorem buildRequests_empty_bids_throws_witness :
    buildRequests [] wEmptyBr wEnv = none :=
  buildRequests_empty_bids_throws [] wEmptyBr wEnv rfl

end StroeerCore
